import Mathlib

/-!
Verification of the qul-tafsir indexing pipeline (ansari-project/indexing).

The Python sources are shallowly embedded over `List Char` (Python `str`),
`Int` (Python `int`), `Option`/`Except` (fallible calls / raised exceptions).
Pure helpers from `src/qul_tafsir/converter.py` and `indexing/qul.py` are
translated function by function; the effectful publisher
(`convert_to_vectara`) is modelled as a pure function from an explicit
backend oracle and database snapshot to the list of backend calls it makes
plus the propagated exception, mirroring the control flow of the source.

External library behaviour that the source delegates to is modelled where a
claim depends on it:
* `str.split(sep)` for a one-character separator (`pySplit`),
* `int(str)` conversion (`int_of_pystr`: optional surrounding whitespace,
  optional sign, nonempty ASCII digit run with single underscores allowed
  between digits),
* `str(int)` printing (`intToStr`),
* Python format spec `"0>3"` (`pyFormatPad3`),
* BeautifulSoup "html.parser" fragment parsing, `find_all`, `get_text`
  (tokenizer + stack tree builder below), and the `TypeError` that
  `BeautifulSoup(None, ...)` raises (its constructor calls `len(markup)`),
* Python `sorted` (a stable sort: `List.insertionSort`).

All definitions are structural recursions, so concrete runs reduce inside
the kernel (`decide`/`rfl`).
-/

/-- Convert a Lean string literal to the character-list representation used
throughout this development for Python `str` values. -/
def pyStr (s : String) : List Char := s.toList

/-- ASCII decimal digit test (the digits accepted by Python `int(str)` in the
ASCII range). -/
def isDig (c : Char) : Bool := 48 ≤ c.toNat && c.toNat ≤ 57

/-- Numeric value of an ASCII digit character. -/
def digitVal (c : Char) : Nat := c.toNat - 48

/-- Characters stripped by Python `int(str)` / `str.strip()` (ASCII whitespace). -/
def pyWsChar (c : Char) : Bool :=
  c = ' ' || c = '\t' || c = '\n' || c = '\r' || c = '\x0b' || c = '\x0c'

/-- Python `str.strip()` on the ASCII range: drop whitespace from both ends. -/
def pyStripWs (cs : List Char) : List Char :=
  ((cs.dropWhile pyWsChar).reverse.dropWhile pyWsChar).reverse

/-- Step of decimal accumulation: `acc * 10 + digit`. -/
def digAcc (acc : Nat) (c : Char) : Nat := acc * 10 + digitVal c

/-- Digit run after the first digit of a Python integer literal: digits, with a
single underscore allowed between two digits (Python `int("1_2") = 12`,
`int("1__2")` and trailing underscore fail). -/
def pyDigitsRest (acc : Nat) : List Char → Option Nat
  | [] => some acc
  | [c] => if isDig c then some (digAcc acc c) else none
  | c :: d :: ds =>
    if isDig c then pyDigitsRest (digAcc acc c) (d :: ds)
    else if c = '_' && isDig d then pyDigitsRest (digAcc acc d) ds
    else none

/-- Nonempty digit run of a Python integer literal. -/
def pyDigits : List Char → Option Nat
  | [] => none
  | c :: cs => if isDig c then pyDigitsRest (digitVal c) cs else none

/-- Model of Python `int(s)` for a `str` argument: strip whitespace, optional
single sign, nonempty digit run; `none` models the raised `ValueError`. -/
def int_of_pystr (cs : List Char) : Option Int :=
  match pyStripWs cs with
  | '+' :: rest => (pyDigits rest).map (fun n => (n : Int))
  | '-' :: rest => (pyDigits rest).map (fun n => -(n : Int))
  | t => (pyDigits t).map (fun n => (n : Int))

/-- ASCII character of a decimal digit value (values `≥ 9` clamp to `'9'`;
only ever applied to values `< 10`). -/
def digitChar : Nat → Char
  | 0 => '0' | 1 => '1' | 2 => '2' | 3 => '3' | 4 => '4'
  | 5 => '5' | 6 => '6' | 7 => '7' | 8 => '8' | _ => '9'

/-- Fuelled decimal digit string of a natural number (most significant digit
first); fuel `n + 1` always suffices, see `natDigits_eq`. -/
def natDigitsAux : Nat → Nat → List Char
  | 0, _ => []
  | fuel + 1, n =>
    if n < 10 then [digitChar n]
    else natDigitsAux fuel (n / 10) ++ [digitChar (n % 10)]

/-- Decimal digit string of a natural number, e.g. `natDigits 107 = "107"`. -/
def natDigits (n : Nat) : List Char := natDigitsAux (n + 1) n

/-- Model of Python `str(x)` for an `int` argument. -/
def intToStr (x : Int) : List Char :=
  if x < 0 then '-' :: natDigits x.natAbs else natDigits x.natAbs

/-- Model of the Python format spec `"0>3"` used in `f"{surah:0>3}"`: pad the
rendered value on the left with `'0'` up to width 3. -/
def pyFormatPad3 (s : List Char) : List Char :=
  if s.length < 3 then List.replicate (3 - s.length) '0' ++ s else s

/-- Model of Python `s.split(sep)` for a single-character separator: split at
every occurrence, keeping empty segments (`"".split(":") = [""]`,
`"1:2:3".split(":") = ["1","2","3"]`). -/
def pySplit (sep : Char) : List Char → List (List Char)
  | [] => [[]]
  | c :: rest =>
    let r := pySplit sep rest
    if c = sep then [] :: r
    else
      match r with
      | [] => [[c]]
      | h :: t => (c :: h) :: t

/-- Model of Python `":" in s` (substring test; for the one-character needle
`":"` this is character membership). -/
def hasColon (l : List Char) : Bool := l.any (fun c => c == ':')

/-- Number of `':'` separators in a key string. -/
def colonCount (l : List Char) : Nat := l.countP (fun c => c == ':')

/-- Parse both sides of a split verse key and combine them, mirroring
`surah * 1000 + ayah` in the source; `none` models the `ValueError` raised
when either `int(...)` call fails. -/
def parseBothInts (a b : List Char) : Option Int :=
  match int_of_pystr a, int_of_pystr b with
  | some s, some v => some (s * 1000 + v)
  | _, _ => none

/-- TafsirConverter.ayah_key_to_int (src/qul_tafsir/converter.py, lines 45-75):
raise on empty / colon-free input, split on `":"`, raise unless exactly two
parts, convert both with `int`, return `surah * 1000 + ayah`. `none` models
the raised `ValueError`. -/
def ayah_key_to_int (ayah_key : List Char) : Option Int :=
  if ayah_key = [] || !(hasColon ayah_key) then none
  else
    match pySplit ':' ayah_key with
    | [a, b] => parseBothInts a b
    | _ => none

/-- ayah_key_to_int from indexing/qul.py (lines 35-46): tuple-unpack the split
(raising `ValueError` unless exactly two parts), then convert both sides. -/
def ayah_key_to_int_qul (ayah_key : List Char) : Option Int :=
  match pySplit ':' ayah_key with
  | [a, b] => parseBothInts a b
  | _ => none

/-- TafsirConverter.ayah_int_to_key (converter.py lines 77-89): Python `//`
and `%` are floor division and floor modulus, rendered as `f"{surah}:{ayah}"`. -/
def ayah_int_to_key (ayah_int : Int) : List Char :=
  intToStr (ayah_int.fdiv 1000) ++ ':' :: intToStr (ayah_int.fmod 1000)

/-- Verse key literal `f"{a}:{v}"` as built by a caller of the key codec. -/
def mkKey (a v : Int) : List Char := intToStr a ++ ':' :: intToStr v

/-- Token stream of an HTML fragment: start tags, end tags, text runs. -/
inductive HTok where
  | tOpen : List Char → HTok
  | tClose : List Char → HTok
  | tText : List Char → HTok
deriving DecidableEq

/-- ASCII letter test (a tag can only start with a letter in html.parser). -/
def isAsciiAlpha (c : Char) : Bool :=
  (65 ≤ c.toNat && c.toNat ≤ 90) || (97 ≤ c.toNat && c.toNat ≤ 122)

/-- Characters that may continue a tag name. -/
def isNameChar (c : Char) : Bool := isAsciiAlpha c || isDig c || c = '-'

/-- ASCII lower-casing, as html.parser lower-cases tag names. -/
def lowerChar (c : Char) : Char :=
  if 65 ≤ c.toNat && c.toNat ≤ 90 then Char.ofNat (c.toNat + 32) else c

/-- Tokenizer state: plain text, just after `'<'`, inside a start-tag name,
inside a start tag after the name (attributes are skipped), inside an end-tag
name, inside an end tag after the name. Accumulators are kept reversed. -/
inductive TkMode where
  | mText : List Char → TkMode
  | mTagStart : List Char → TkMode
  | mTagName : List Char → TkMode
  | mTagRest : List Char → TkMode
  | mCloseName : List Char → TkMode
  | mCloseRest : List Char → TkMode

/-- Flush a (reversed) pending text accumulator into at most one text token. -/
def emitText (accRev : List Char) : List HTok :=
  if accRev = [] then [] else [HTok.tText accRev.reverse]

/-- One-character-at-a-time HTML tokenizer modelling html.parser on the
fragment subset the pipeline feeds it: tags with optional attributes (skipped),
end tags, text; `'<'` not followed by a letter or `'/'` is literal text; an
unterminated tag at end of input is dropped. -/
def tokenizeAux : TkMode → List Char → List HTok
  | TkMode.mText acc, [] => emitText acc
  | TkMode.mText acc, c :: cs =>
    if c = '<' then tokenizeAux (TkMode.mTagStart acc) cs
    else tokenizeAux (TkMode.mText (c :: acc)) cs
  | TkMode.mTagStart acc, [] => emitText ('<' :: acc)
  | TkMode.mTagStart acc, c :: cs =>
    if c = '/' then emitText acc ++ tokenizeAux (TkMode.mCloseName []) cs
    else if isAsciiAlpha c then emitText acc ++ tokenizeAux (TkMode.mTagName [lowerChar c]) cs
    else tokenizeAux (TkMode.mText (c :: '<' :: acc)) cs
  | TkMode.mTagName _, [] => []
  | TkMode.mTagName nameRev, c :: cs =>
    if c = '>' then HTok.tOpen nameRev.reverse :: tokenizeAux (TkMode.mText []) cs
    else if isNameChar c then tokenizeAux (TkMode.mTagName (lowerChar c :: nameRev)) cs
    else tokenizeAux (TkMode.mTagRest nameRev.reverse) cs
  | TkMode.mTagRest _, [] => []
  | TkMode.mTagRest name, c :: cs =>
    if c = '>' then HTok.tOpen name :: tokenizeAux (TkMode.mText []) cs
    else tokenizeAux (TkMode.mTagRest name) cs
  | TkMode.mCloseName _, [] => []
  | TkMode.mCloseName nameRev, c :: cs =>
    if c = '>' then HTok.tClose nameRev.reverse :: tokenizeAux (TkMode.mText []) cs
    else if isNameChar c then tokenizeAux (TkMode.mCloseName (lowerChar c :: nameRev)) cs
    else tokenizeAux (TkMode.mCloseRest nameRev.reverse) cs
  | TkMode.mCloseRest _, [] => []
  | TkMode.mCloseRest name, c :: cs =>
    if c = '>' then HTok.tClose name :: tokenizeAux (TkMode.mText []) cs
    else tokenizeAux (TkMode.mCloseRest name) cs

/-- Token stream of an HTML fragment. -/
def htmlTokens (html : List Char) : List HTok := tokenizeAux (TkMode.mText []) html

mutual
/-- Parsed HTML node: a text run or an element with a forest of children. -/
inductive HNode where
  | txt : List Char → HNode
  | tag : List Char → HForest → HNode
/-- Forest of sibling HTML nodes in document order. -/
inductive HForest where
  | nil : HForest
  | cons : HNode → HForest → HForest
end

/-- Convert a plain list of nodes to a forest. -/
def toForest : List HNode → HForest
  | [] => HForest.nil
  | n :: rest => HForest.cons n (toForest rest)

/-- Close an open element frame (children kept reversed while open). -/
def frameClose (name : List Char) (kidsRev : List HNode) : HNode :=
  HNode.tag name (toForest kidsRev.reverse)

/-- Whether the open-element stack contains a frame for `n`. -/
def stackHas (n : List Char) (stack : List (List Char × List HNode)) : Bool :=
  stack.any (fun f => f.1 == n)

/-- Close a run of open frames innermost-first, each completed element
becoming the last child of the frame above it; returns the completed
outermost element, if any. -/
def collapseInner : List (List Char × List HNode) → Option HNode → Option HNode
  | [], acc => acc
  | (m, kidsRev) :: rest, acc =>
    let kids := match acc with | some nd => nd :: kidsRev | none => kidsRev
    collapseInner rest (some (frameClose m kids))

/-- Attach a completed node to the innermost open frame, or to the root
accumulator when no element is open. -/
def addToParent (nd : HNode) (stack : List (List Char × List HNode))
    (rootRev : List HNode) : List (List Char × List HNode) × List HNode :=
  match stack with
  | [] => ([], nd :: rootRev)
  | (m, kidsRev) :: st => ((m, nd :: kidsRev) :: st, rootRev)

/-- Stack-based tree builder over the token stream, modelling bs4's
html.parser tree builder: a start tag opens a frame; text attaches to the
innermost frame; an end tag with no matching open element is ignored; an end
tag matching an outer element implicitly closes the elements inside it;
elements still open at end of input are implicitly closed. -/
def buildAux : List HTok → List (List Char × List HNode) → List HNode → List HNode
  | [], stack, rootRev =>
    (match collapseInner stack none with
     | some nd => nd :: rootRev
     | none => rootRev).reverse
  | HTok.tText s :: toks, stack, rootRev =>
    (match stack with
     | [] => buildAux toks [] (HNode.txt s :: rootRev)
     | (m, kidsRev) :: st => buildAux toks ((m, HNode.txt s :: kidsRev) :: st) rootRev)
  | HTok.tOpen n :: toks, stack, rootRev => buildAux toks ((n, []) :: stack) rootRev
  | HTok.tClose n :: toks, stack, rootRev =>
    if stackHas n stack then
      match stack.dropWhile (fun f => !(f.1 == n)), stack.takeWhile (fun f => !(f.1 == n)) with
      | [], _ => buildAux toks stack rootRev
      | (m, kidsRev) :: post, pre =>
        let kids := match collapseInner pre none with
                    | some nd => nd :: kidsRev
                    | none => kidsRev
        let st2 := addToParent (frameClose m kids) post rootRev
        buildAux toks st2.1 st2.2
    else buildAux toks stack rootRev

/-- BeautifulSoup(html, "html.parser"): parse a fragment into a forest. -/
def htmlParse (html : List Char) : HForest := toForest (buildAux (htmlTokens html) [] [])

mutual
/-- element.get_text(): concatenated text of all descendant strings. -/
def getTextN : HNode → List Char
  | HNode.txt s => s
  | HNode.tag _ kids => getTextF kids
/-- get_text over a forest of siblings, in document order. -/
def getTextF : HForest → List Char
  | HForest.nil => []
  | HForest.cons n rest => getTextN n ++ getTextF rest
end

mutual
/-- soup.find_all(names) restricted to one node: the node itself when its tag
matches, followed by its matching descendants, in document order. -/
def findAllN (names : List (List Char)) : HNode → List HNode
  | HNode.txt _ => []
  | HNode.tag n kids =>
    (if names.contains n then [HNode.tag n kids] else []) ++ findAllF names kids
/-- soup.find_all(names) over a forest: matching elements in document order. -/
def findAllF (names : List (List Char)) : HForest → List HNode
  | HForest.nil => []
  | HForest.cons x xs => findAllN names x ++ findAllF names xs
end

mutual
/-- All descendant strings of a node, in document order (bs4 `_all_strings`). -/
def stringsN : HNode → List (List Char)
  | HNode.txt s => [s]
  | HNode.tag _ kids => stringsF kids
/-- All descendant strings of a forest, in document order. -/
def stringsF : HForest → List (List Char)
  | HForest.nil => []
  | HForest.cons n rest => stringsN n ++ stringsF rest
end

/-- The tag names requested by the structural extractor: `["h1", "h2", "p"]`. -/
def structuralTags : List (List Char) := [pyStr "h1", pyStr "h2", pyStr "p"]

/-- TafsirConverter.split_html_by_tags (converter.py lines 91-106, qul.py
lines 64-79): `str(element.get_text())` for every element found by
`soup.find_all(["h1", "h2", "p"])`, in document order, with no filtering. -/
def split_html_by_tags (html : List Char) : List (List Char) :=
  (findAllF structuralTags (htmlParse html)).map getTextN

/-- Python exception kinds raised by the modelled code paths. -/
inductive PyErr where
  | typeError
  | valueError
  | backendError
deriving DecidableEq

/-- split_html_by_tags applied to a possibly-`None` argument:
`BeautifulSoup(None, "html.parser")` raises `TypeError` (its constructor
calls `len(markup)` on the argument). -/
def split_html_by_tags_py (o : Option (List Char)) : Except PyErr (List (List Char)) :=
  match o with
  | none => Except.error PyErr.typeError
  | some h => Except.ok (split_html_by_tags h)

/-- Join string segments with a separator character (Python `sep.join`). -/
def joinSep (c : Char) : List (List Char) → List Char
  | [] => []
  | [s] => s
  | s :: rest => s ++ c :: joinSep c rest

/-- soup.get_text(separator="\n", strip=True) as used by the plain-text mode
of convert_to_agentset (converter.py line 356): strip each descendant string,
drop the ones that become empty, join the rest with newlines. -/
def get_text_plain (html : List Char) : List Char :=
  joinSep '\n' (((stringsF (htmlParse html)).map pyStripWs).filter (fun s => !(s.isEmpty)))

/-- Plain-text-mode extraction applied to a possibly-`None` argument; as with
the structural mode, BeautifulSoup raises `TypeError` on `None`. -/
def plain_text_extract_py (o : Option (List Char)) : Except PyErr (List Char) :=
  match o with
  | none => Except.error PyErr.typeError
  | some h => Except.ok (get_text_plain h)

/-- One row of the `tafsir` table, as selected by `convert_to_vectara`
(columns `ayah_key, group_ayah_key, from_ayah, to_ayah, ayah_keys, text`);
`text` is nullable in the database. -/
structure TafsirRow where
  ayah_key : List Char
  group_ayah_key : List Char
  from_ayah : List Char
  to_ayah : List Char
  ayah_keys : List Char
  text : Option (List Char)
deriving DecidableEq, Inhabited

/-- One entry of `document_parts`: the metadata dict plus one extracted text
segment (converter.py lines 204-219). -/
structure DocPart where
  ayah_key : List Char
  group_ayah_key : List Char
  from_ayah : List Char
  to_ayah : List Char
  from_ayah_int : Int
  to_ayah_int : Int
  ayah_keys : List Char
  text : List Char
deriving DecidableEq

/-- Observable actions of one `convert_to_vectara` run: the local JSON
snapshot write, the backend delete call, the swallowed-delete-failure log
line, and the backend create call. -/
inductive VEvent where
  | saveJson : List Char → VEvent
  | deleteDoc : List Char → VEvent
  | deleteFailedLog : List Char → VEvent
  | createDoc : List Char → VEvent
deriving DecidableEq

/-- Oracle describing how the Vectara backend responds to the two write
calls, keyed by the document id passed to the call. -/
structure VectaraBackend where
  deleteOk : List Char → Bool
  createOk : List Char → Bool

/-- The inner `for part in parts: if part: v_ayahs.append(...)` loop of
`convert_to_vectara` for one row: empty extracted parts are skipped, and each
kept part evaluates `ayah_key_to_int` on the row's `from_ayah`/`to_ayah`,
whose `ValueError` propagates. -/
def partsLoop (row : TafsirRow) : List (List Char) → Except PyErr (List DocPart)
  | [] => Except.ok []
  | p :: rest =>
    if p = [] then partsLoop row rest
    else
      match ayah_key_to_int row.from_ayah, ayah_key_to_int row.to_ayah with
      | some f, some t =>
        (match partsLoop row rest with
         | Except.ok l =>
           Except.ok (⟨row.ayah_key, row.group_ayah_key, row.from_ayah, row.to_ayah,
                       f, t, row.ayah_keys, p⟩ :: l)
         | Except.error e => Except.error e)
      | _, _ => Except.error PyErr.valueError

/-- Document parts contributed by one row: `split_html_by_tags(ayah[5])`
(raising `TypeError` when the database `text` is NULL) followed by the part
loop. -/
def rowParts (row : TafsirRow) : Except PyErr (List DocPart) :=
  match row.text with
  | none => Except.error PyErr.typeError
  | some html => partsLoop row (split_html_by_tags html)

/-- Concatenated document parts of all rows of one chapter, with the first
raised exception propagating. -/
def rowsParts : List TafsirRow → Except PyErr (List DocPart)
  | [] => Except.ok []
  | r :: rest =>
    match rowParts r with
    | Except.error e => Except.error e
    | Except.ok ps =>
      match rowsParts rest with
      | Except.error e => Except.error e
      | Except.ok l => Except.ok (ps ++ l)

/-- The per-surah SELECT `WHERE ayah_key LIKE '<surah>:%'`: rows whose
`ayah_key` starts with `f"{surah}:"`, in table order. -/
def chapterRows (db : List TafsirRow) (surah : Nat) : List TafsirRow :=
  db.filter (fun r => (natDigits surah ++ [':']).isPrefixOf r.ayah_key)

/-- Document id used by the create call: `f"{tafsir_name}-{surah:0>3}"`
(converter.py line 195 / qul.py line 172, the `id` field of `core_doc`). -/
def vectaraCreateId (name : List Char) (surah : Nat) : List Char :=
  name ++ '-' :: pyFormatPad3 (natDigits surah)

/-- Document id used by the pre-create delete call:
`f"{tafsir_name}-{surah}"` (converter.py line 233 / qul.py line 210),
written without the zero padding of the create id. -/
def vectaraDeleteId (name : List Char) (surah : Nat) : List Char :=
  name ++ '-' :: natDigits surah

/-- File name of the per-chapter JSON snapshot: `f"{tafsir_name}-{surah}.json"`. -/
def jsonSnapshotName (name : List Char) (surah : Nat) : List Char :=
  name ++ '-' :: natDigits surah ++ pyStr ".json"

/-- One iteration of the per-surah loop of `convert_to_vectara` (converter.py
lines 181-246): query the chapter rows, build the document parts (exceptions
propagate), and when at least one part was extracted: write the JSON
snapshot, attempt the delete (a failure is caught and logged), then create
the document (a failure propagates). Returns the emitted events and the
propagated exception, if any. -/
def processSurah (B : VectaraBackend) (db : List TafsirRow) (name : List Char)
    (surah : Nat) : List VEvent × Option PyErr :=
  match rowsParts (chapterRows db surah) with
  | Except.error e => ([], some e)
  | Except.ok parts =>
    if parts.length ≠ 0 then
      let delId := vectaraDeleteId name surah
      let evs := VEvent.saveJson (jsonSnapshotName name surah) ::
        VEvent.deleteDoc delId ::
        ((if B.deleteOk delId then [] else [VEvent.deleteFailedLog delId]) ++
         [VEvent.createDoc (vectaraCreateId name surah)])
      if B.createOk (vectaraCreateId name surah) then (evs, none)
      else (evs, some PyErr.backendError)
    else ([], none)

/-- The `for surah in range(*surah_range)` driver loop: chapters are
processed in order, and the first propagated exception ends the loop (there
is no try/except around the body). -/
def convertLoop (B : VectaraBackend) (db : List TafsirRow) (name : List Char) :
    List Nat → List VEvent × Option PyErr
  | [] => ([], none)
  | s :: rest =>
    match processSurah B db name s with
    | (evs, some e) => (evs, some e)
    | (evs, none) =>
      let r := convertLoop B db name rest
      (evs ++ r.1, r.2)

/-- Python `range(a, b)`. -/
def pyRange (a b : Nat) : List Nat := List.range' a (b - a)

/-- TafsirConverter.convert_to_vectara (converter.py lines 167-246, qul.py
lines 144-223) as a function of the backend oracle and a database snapshot:
the events of the run and the exception that escaped it, if any. -/
def convert_to_vectara (B : VectaraBackend) (db : List TafsirRow)
    (tafsir_name : List Char) (surah_range : Nat × Nat) : List VEvent × Option PyErr :=
  convertLoop B db tafsir_name (pyRange surah_range.1 surah_range.2)

/-- Ids passed to the backend create call during a run. -/
def createdIds (evs : List VEvent) : List (List Char) :=
  evs.filterMap (fun e => match e with | VEvent.createDoc i => some i | _ => none)

/-- The same backend with every delete call succeeding. -/
def allDeleteOk (B : VectaraBackend) : VectaraBackend :=
  { deleteOk := fun _ => true, createOk := B.createOk }

/-- One document of the Agentset listing used by `deduplicate_agentset`:
`doc.id`, `doc.name` (possibly absent) and `doc.created_at` (timestamps
modelled as naturals, only their order matters). -/
structure AgDoc where
  id : List Char
  name : Option (List Char)
  created_at : Nat
deriving DecidableEq, Inhabited

/-- Placeholder group name for documents without a name (converter.py line
585: `doc.name if doc.name else "unnamed"`; an empty name is falsy too). -/
def unnamedStr : List Char := pyStr "unnamed"

/-- Grouping key of a document. -/
def effName (d : AgDoc) : List Char :=
  match d.name with
  | none => unnamedStr
  | some n => if n = [] then unnamedStr else n

/-- The (insertion-ordered) group of documents sharing a grouping key. -/
def groupOf (docs : List AgDoc) (n : List Char) : List AgDoc :=
  docs.filter (fun d => decide (effName d = n))

/-- Comparison used by `sorted(docs, key=lambda d: d.created_at)`. -/
def byCreated (a b : AgDoc) : Prop := a.created_at ≤ b.created_at

instance : DecidableRel byCreated := fun a b => Nat.decLe a.created_at b.created_at

instance : IsTotal AgDoc byCreated := ⟨fun a b => Nat.le_total a.created_at b.created_at⟩

instance : IsTrans AgDoc byCreated := ⟨fun _ _ _ h1 h2 => Nat.le_trans h1 h2⟩

/-- Code-point lexicographic strict order on strings (Python `str` `<`). -/
def lexLtCh : List Char → List Char → Bool
  | [], [] => false
  | [], _ :: _ => true
  | _ :: _, [] => false
  | a :: as2, b :: bs =>
    if a.toNat < b.toNat then true
    else if b.toNat < a.toNat then false
    else lexLtCh as2 bs

/-- Non-strict string order used to model `sorted(duplicates.items())`. -/
def strLe (a b : List Char) : Prop := lexLtCh b a = false

instance : DecidableRel strLe := fun a b => Bool.decEq (lexLtCh b a) false

/-- The retention policy strings accepted by `deduplicate_agentset`. -/
def oldestStr : List Char := pyStr "oldest"

/-- The documented alternative policy value (any other string behaves the same). -/
def newestStr : List Char := pyStr "newest"

/-- Decision for one duplicate group: the retained document and the documents
flagged for deletion. -/
structure DupDecision where
  name : List Char
  keepDoc : AgDoc
  deleteDocs : List AgDoc
deriving DecidableEq

/-- Result of one `deduplicate_agentset` run: the per-group decisions and the
ids for which a backend delete call was performed. -/
structure DedupRun where
  decisions : List DupDecision
  deleteCalls : List (List Char)
deriving DecidableEq

/-- `sorted(docs, key=lambda d: d.created_at)`: Python's sort is stable, as
is insertion sort. -/
def sortGroup (g : List AgDoc) : List AgDoc := List.insertionSort byCreated g

/-- The keep/delete split of one sorted duplicate group (converter.py lines
608-613 and 631-636): `keep == "oldest"` retains `docs_sorted[0]` and flags
`docs_sorted[1:]`; any other value takes the else branch, retaining
`docs_sorted[-1]` and flagging `docs_sorted[:-1]`. -/
def decideGroup (keep : List Char) (g : List AgDoc) : AgDoc × List AgDoc :=
  match sortGroup g with
  | [] => (default, [])
  | k :: rest =>
    if keep = oldestStr then (k, rest)
    else ((k :: rest).getLast (List.cons_ne_nil k rest), (k :: rest).dropLast)

/-- Names owning more than one document, in the order `sorted(duplicates.items())`
iterates them. -/
def dupNames (docs : List AgDoc) : List (List Char) :=
  List.insertionSort strLe
    (((docs.map effName).dedup).filter (fun n => decide (1 < (groupOf docs n).length)))

/-- TafsirConverter.deduplicate_agentset (converter.py lines 531-649) after
the listing has been paged into memory: group by name, keep one document per
duplicate group according to the policy, and in delete mode call the backend
delete for every flagged document (dry-run performs no delete calls). -/
def deduplicate_agentset (docs : List AgDoc) (dry_run : Bool) (keep : List Char) : DedupRun :=
  let ds := (dupNames docs).map (fun n =>
    let kd := decideGroup keep (groupOf docs n)
    DupDecision.mk n kd.1 kd.2)
  { decisions := ds
    deleteCalls := if dry_run then [] else ds.flatMap (fun d => d.deleteDocs.map (fun x => x.id)) }

/-- Sample commentary row whose every key column is `k` and whose `text` is
the markup `h`. -/
def sampleRow (k h : String) : TafsirRow :=
  ⟨pyStr k, pyStr k, pyStr k, pyStr k, pyStr k, some (pyStr h)⟩

/-- Sample database snapshot: one commentary row for chapter 1 and one for
chapter 2. -/
def sampleDb : List TafsirRow :=
  [sampleRow "1:1" "<p>Hi</p>", sampleRow "2:1" "<p>Ho</p>"]

/-- Backend on which every call succeeds. -/
def okBackend : VectaraBackend := ⟨fun _ => true, fun _ => true⟩

/-- Backend whose create call fails exactly for document id `"x-001"`. -/
def failX1Backend : VectaraBackend := ⟨fun _ => true, fun i => !(i == pyStr "x-001")⟩

/-- Backend whose create call fails exactly for document id `"x-002"`. -/
def failX2Backend : VectaraBackend := ⟨fun _ => true, fun i => !(i == pyStr "x-002")⟩

/-- Sample duplicate documents: three documents named `"x"` with creation
timestamps 1, 3 and 2. -/
def exDocA : AgDoc := ⟨pyStr "a", some (pyStr "x"), 1⟩

/-- Second sample document, named `"x"`, timestamp 3. -/
def exDocB : AgDoc := ⟨pyStr "b", some (pyStr "x"), 3⟩

/-- Third sample document, named `"x"`, timestamp 2. -/
def exDocC : AgDoc := ⟨pyStr "c", some (pyStr "x"), 2⟩

/-- The sample listing in its backend order. -/
def exDocs : List AgDoc := [exDocA, exDocB, exDocC]


theorem natDigitsAux_fuel : ∀ f1 f2 n, n < f1 → n < f2 →
    natDigitsAux f1 n = natDigitsAux f2 n := by
  intro f1
  induction f1 with
  | zero => intro f2 n h1; omega
  | succ f ih =>
    intro f2 n h1 h2
    cases f2 with
    | zero => omega
    | succ g =>
      simp only [natDigitsAux]
      by_cases h10 : n < 10
      · simp [h10]
      · have hdiv : n / 10 < n := Nat.div_lt_self (by omega) (by omega)
        simp only [h10, if_false]
        rw [ih g (n / 10) (by omega) (by omega)]

theorem natDigits_eq (n : Nat) : natDigits n =
    if n < 10 then [digitChar n] else natDigits (n / 10) ++ [digitChar (n % 10)] := by
  have h1 : natDigits n = if n < 10 then [digitChar n]
      else natDigitsAux n (n / 10) ++ [digitChar (n % 10)] := rfl
  rw [h1]
  by_cases h10 : n < 10
  · simp [h10]
  · simp only [h10, if_false]
    rw [natDigitsAux_fuel n (n / 10 + 1) (n / 10) (by omega) (by omega)]
    rfl

theorem digitChar_isDig {d : Nat} (h : d < 10) : isDig (digitChar d) = true := by
  interval_cases d <;> decide

theorem digitVal_digitChar {d : Nat} (h : d < 10) : digitVal (digitChar d) = d := by
  interval_cases d <;> decide

theorem isDig_not_ws {c : Char} (h : isDig c = true) : pyWsChar c = false := by
  by_contra hw
  have hw2 : pyWsChar c = true := by
    cases hcw : pyWsChar c
    · exact absurd hcw hw
    · rfl
  simp only [pyWsChar, Bool.or_eq_true, decide_eq_true_eq] at hw2
  rcases hw2 with ((((h1 | h1) | h1) | h1) | h1) | h1 <;> subst h1 <;> exact absurd h (by decide)

theorem isDig_ne_colon {c : Char} (h : isDig c = true) : c ≠ ':' := by
  intro he; subst he; exact absurd h (by decide)

theorem isDig_ne_plus {c : Char} (h : isDig c = true) : c ≠ '+' := by
  intro he; subst he; exact absurd h (by decide)

theorem isDig_ne_minus {c : Char} (h : isDig c = true) : c ≠ '-' := by
  intro he; subst he; exact absurd h (by decide)

theorem pyDigitsRest_all_dig : ∀ (ds : List Char) (acc : Nat),
    (∀ c ∈ ds, isDig c = true) → pyDigitsRest acc ds = some (ds.foldl digAcc acc) := by
  intro ds
  induction ds with
  | nil => intro acc _; rfl
  | cons c cs ih =>
    intro acc h
    have hc : isDig c = true := h c (by simp)
    cases cs with
    | nil =>
      have h1 : pyDigitsRest acc [c] =
          if isDig c then some (digAcc acc c) else none := rfl
      rw [h1]
      simp [hc]
    | cons d ds =>
      have h1 : pyDigitsRest acc (c :: d :: ds) =
          if isDig c then pyDigitsRest (digAcc acc c) (d :: ds)
          else if c = '_' && isDig d then pyDigitsRest (digAcc acc d) ds
          else none := rfl
      rw [h1]
      simp only [hc, if_true, List.foldl_cons]
      exact ih (digAcc acc c) (fun x hx => h x (by simp [hx]))

theorem pyDigits_all_dig (ds : List Char) (hne : ds ≠ [])
    (h : ∀ c ∈ ds, isDig c = true) : pyDigits ds = some (ds.foldl digAcc 0) := by
  cases ds with
  | nil => exact absurd rfl hne
  | cons c cs =>
    have hc : isDig c = true := h c (by simp)
    simp only [pyDigits, hc, if_true, List.foldl_cons]
    have : digAcc 0 c = digitVal c := by simp [digAcc]
    rw [← this]
    exact pyDigitsRest_all_dig cs (digAcc 0 c) (fun x hx => h x (by simp [hx]))

theorem natDigits_all_dig : ∀ n : Nat, ∀ c ∈ natDigits n, isDig c = true := by
  intro n
  induction n using Nat.strong_induction_on with
  | _ n ih =>
    intro c hc
    rw [natDigits_eq] at hc
    by_cases h10 : n < 10
    · simp only [h10, if_true, List.mem_singleton] at hc
      subst hc; exact digitChar_isDig h10
    · have hdiv : n / 10 < n := Nat.div_lt_self (by omega) (by omega)
      simp only [h10, if_false, List.mem_append, List.mem_singleton] at hc
      rcases hc with hc | hc
      · exact ih (n / 10) hdiv c hc
      · subst hc; exact digitChar_isDig (Nat.mod_lt _ (by omega))

theorem natDigits_ne_nil (n : Nat) : natDigits n ≠ [] := by
  rw [natDigits_eq]
  by_cases h10 : n < 10 <;> simp [h10]

theorem natDigits_foldl : ∀ n acc : Nat,
    (natDigits n).foldl digAcc acc = acc * 10 ^ (natDigits n).length + n := by
  intro n
  induction n using Nat.strong_induction_on with
  | _ n ih =>
    intro acc
    rw [natDigits_eq]
    by_cases h10 : n < 10
    · simp only [h10, if_true, List.foldl_cons, List.foldl_nil, List.length_singleton]
      simp [digAcc, digitVal_digitChar h10]
    · have hdiv : n / 10 < n := Nat.div_lt_self (by omega) (by omega)
      simp only [h10, if_false, List.foldl_append, List.foldl_cons, List.foldl_nil,
        List.length_append, List.length_singleton]
      rw [ih (n / 10) hdiv acc]
      have hm : digitVal (digitChar (n % 10)) = n % 10 :=
        digitVal_digitChar (Nat.mod_lt _ (by omega))
      simp only [digAcc, hm]
      have hpow : 10 ^ ((natDigits (n / 10)).length + 1) =
          10 ^ (natDigits (n / 10)).length * 10 := by ring
      rw [hpow]
      have := Nat.div_add_mod n 10
      ring_nf
      omega

theorem pyDigits_natDigits (n : Nat) : pyDigits (natDigits n) = some n := by
  rw [pyDigits_all_dig (natDigits n) (natDigits_ne_nil n) (natDigits_all_dig n),
    natDigits_foldl n 0]
  simp

theorem dropWhile_of_all_false {p : Char → Bool} :
    ∀ l : List Char, (∀ c ∈ l, p c = false) → l.dropWhile p = l := by
  intro l h
  cases l with
  | nil => rfl
  | cons c cs =>
    have hc : p c = false := h c (by simp)
    simp [List.dropWhile_cons, hc]

theorem pyStripWs_of_no_ws {l : List Char} (h : ∀ c ∈ l, pyWsChar c = false) :
    pyStripWs l = l := by
  unfold pyStripWs
  rw [dropWhile_of_all_false l h,
    dropWhile_of_all_false l.reverse (fun c hc => h c (List.mem_reverse.mp hc)),
    List.reverse_reverse]

theorem int_of_pystr_natDigits (n : Nat) : int_of_pystr (natDigits n) = some (n : Int) := by
  have hdig := natDigits_all_dig n
  have hstrip : pyStripWs (natDigits n) = natDigits n :=
    pyStripWs_of_no_ws (fun c hc => isDig_not_ws (hdig c hc))
  unfold int_of_pystr
  rw [hstrip]
  rcases hnd : natDigits n with _ | ⟨c, cs⟩
  · exact absurd hnd (natDigits_ne_nil n)
  · have hc : isDig c = true := hdig c (by rw [hnd]; simp)
    split
    · rename_i rest heq
      rw [List.cons.injEq] at heq
      exact absurd heq.1 (isDig_ne_plus hc)
    · rename_i rest heq
      rw [List.cons.injEq] at heq
      exact absurd heq.1 (isDig_ne_minus hc)
    · rw [← hnd, pyDigits_natDigits n]
      rfl

theorem int_of_pystr_intToStr (x : Int) : int_of_pystr (intToStr x) = some x := by
  unfold intToStr
  by_cases hx : x < 0
  · simp only [hx, if_true]
    have hdig := natDigits_all_dig x.natAbs
    have hnows : ∀ c ∈ '-' :: natDigits x.natAbs, pyWsChar c = false := by
      intro c hc
      rcases List.mem_cons.mp hc with h | h
      · subst h; decide
      · exact isDig_not_ws (hdig c h)
    unfold int_of_pystr
    rw [pyStripWs_of_no_ws hnows]
    split
    · rename_i rest heq
      rw [List.cons.injEq] at heq
      exact absurd heq.1 (by decide)
    · rename_i rest heq
      rw [List.cons.injEq] at heq
      rw [← heq.2, pyDigits_natDigits]
      show some (-((x.natAbs : Nat) : Int)) = some x
      congr 1
      omega
    · rename_i hne1 hne2
      exact absurd rfl (hne2 (natDigits x.natAbs))
  · simp only [hx, if_false]
    rw [int_of_pystr_natDigits]
    have : ((x.natAbs : Nat) : Int) = x := by omega
    rw [this]

theorem pySplit_ne_nil (sep : Char) : ∀ l : List Char, pySplit sep l ≠ [] := by
  intro l
  cases l with
  | nil => simp [pySplit]
  | cons c cs =>
    simp only [pySplit]
    by_cases h : c = sep
    · simp [h]
    · simp only [h, if_false]
      rcases pySplit sep cs with _ | ⟨a, b⟩ <;> simp

theorem pySplit_no_sep {sep : Char} : ∀ {l : List Char},
    (∀ c ∈ l, c ≠ sep) → pySplit sep l = [l] := by
  intro l
  induction l with
  | nil => intro _; rfl
  | cons c cs ih =>
    intro h
    have hc : c ≠ sep := h c (by simp)
    have hr : pySplit sep cs = [cs] := ih (fun x hx => h x (by simp [hx]))
    simp only [pySplit, hr, hc, if_false]

theorem pySplit_append {sep : Char} : ∀ {A : List Char} (B : List Char),
    (∀ c ∈ A, c ≠ sep) → pySplit sep (A ++ sep :: B) = A :: pySplit sep B := by
  intro A
  induction A with
  | nil => intro B _; simp [pySplit]
  | cons a as ih =>
    intro B h
    have ha : a ≠ sep := h a (by simp)
    have hr : pySplit sep (as ++ sep :: B) = as :: pySplit sep B :=
      ih B (fun x hx => h x (by simp [hx]))
    have hr2 : pySplit sep (as.append (sep :: B)) = as :: pySplit sep B := hr
    simp only [List.cons_append, pySplit, ha, if_false]
    rw [hr2]

theorem pySplit_length (sep : Char) : ∀ l : List Char,
    (pySplit sep l).length = l.countP (fun c => c == sep) + 1 := by
  intro l
  induction l with
  | nil => rfl
  | cons c cs ih =>
    by_cases h : c = sep
    · simp only [pySplit, h, if_true, List.length_cons, ih]
      rw [List.countP_cons_of_pos (fun c => c == sep) cs (by simp [h])]
    · simp only [pySplit, h, if_false]
      rw [List.countP_cons_of_neg (fun c => c == sep) cs (by simp [h])]
      rcases hr : pySplit sep cs with _ | ⟨a, b⟩
      · exact absurd hr (pySplit_ne_nil sep cs)
      · rw [hr] at ih
        simpa using ih

theorem hasColon_false_iff {l : List Char} : hasColon l = false ↔ colonCount l = 0 := by
  unfold hasColon colonCount
  rw [List.countP_eq_zero]
  constructor
  · intro h c hc hp
    have hany : l.any (fun x => x == ':') = true := List.any_eq_true.mpr ⟨c, hc, hp⟩
    rw [h] at hany
    exact Bool.false_ne_true hany
  · intro h
    cases ha : l.any (fun x => x == ':')
    · rfl
    · rcases List.any_eq_true.mp ha with ⟨c, hc, hp⟩
      exact absurd hp (h c hc)

theorem intToStr_no_colon (x : Int) : ∀ c ∈ intToStr x, c ≠ ':' := by
  intro c hc
  unfold intToStr at hc
  by_cases hx : x < 0
  · simp only [hx, if_true] at hc
    rcases List.mem_cons.mp hc with h | h
    · subst h; decide
    · exact isDig_ne_colon (natDigits_all_dig _ c h)
  · simp only [hx, if_false] at hc
    exact isDig_ne_colon (natDigits_all_dig _ c hc)

theorem ayah_key_to_int_eq_match (k : List Char) (hne : k ≠ []) (hcol : hasColon k = true) :
    ayah_key_to_int k = (match pySplit ':' k with
      | [a, b] => parseBothInts a b
      | _ => none) := by
  unfold ayah_key_to_int
  simp [hne, hcol]

theorem parse_mkKey (a v : Int) : ayah_key_to_int (mkKey a v) = some (a * 1000 + v) := by
  have hsplit : pySplit ':' (mkKey a v) = [intToStr a, intToStr v] := by
    unfold mkKey
    rw [pySplit_append (intToStr v) (intToStr_no_colon a),
      pySplit_no_sep (intToStr_no_colon v)]
  have hne : mkKey a v ≠ [] := by
    unfold mkKey
    simp
  have hcol : hasColon (mkKey a v) = true := by
    unfold hasColon mkKey
    rw [List.any_eq_true]
    exact ⟨':', by simp, by simp⟩
  rw [ayah_key_to_int_eq_match _ hne hcol, hsplit]
  show parseBothInts (intToStr a) (intToStr v) = some (a * 1000 + v)
  unfold parseBothInts
  rw [int_of_pystr_intToStr, int_of_pystr_intToStr]

theorem parseBothInts_none_iff {a b : List Char} :
    parseBothInts a b = none ↔ (int_of_pystr a = none ∨ int_of_pystr b = none) := by
  unfold parseBothInts
  rcases ha : int_of_pystr a with _ | va <;> rcases hb : int_of_pystr b with _ | vb <;> simp

theorem colonCount_ne_zero_hasColon {s : List Char} (h : colonCount s ≠ 0) :
    hasColon s = true := by
  cases hc : hasColon s
  · exact absurd (hasColon_false_iff.mp hc) h
  · rfl

theorem colonCount_pos_ne_nil {s : List Char} (h : colonCount s ≠ 0) : s ≠ [] := by
  intro he
  subst he
  exact h rfl

theorem ayah_key_to_int_none_of_count {s : List Char} (h : colonCount s ≠ 1) :
    ayah_key_to_int s = none := by
  by_cases h0 : colonCount s = 0
  · have hc : hasColon s = false := hasColon_false_iff.mpr h0
    unfold ayah_key_to_int
    simp [hc]
  · have hcol : hasColon s = true := colonCount_ne_zero_hasColon h0
    have hne : s ≠ [] := colonCount_pos_ne_nil h0
    rw [ayah_key_to_int_eq_match s hne hcol]
    have hlen : (pySplit ':' s).length = colonCount s + 1 := pySplit_length ':' s
    rcases hsp : pySplit ':' s with _ | ⟨a, _ | ⟨b, _ | ⟨c, t⟩⟩⟩
    · rfl
    · rfl
    · rw [hsp] at hlen
      simp at hlen
      omega
    · rfl

theorem ayah_key_to_int_of_count_one {s : List Char} (h : colonCount s = 1) :
    ∃ a b, pySplit ':' s = [a, b] ∧ ayah_key_to_int s = parseBothInts a b := by
  have hcol : hasColon s = true := colonCount_ne_zero_hasColon (by omega)
  have hne : s ≠ [] := colonCount_pos_ne_nil (by omega)
  have hlen : (pySplit ':' s).length = 2 := by
    rw [pySplit_length ':' s]
    unfold colonCount at h
    omega
  rcases hsp : pySplit ':' s with _ | ⟨a, _ | ⟨b, _ | ⟨c, t⟩⟩⟩ <;> rw [hsp] at hlen <;>
    simp at hlen
  refine ⟨a, b, rfl, ?_⟩
  rw [ayah_key_to_int_eq_match s hne hcol, hsp]

/-- Claim C7: `verse_key_to_order` (`ayah_key_to_int`) fails with the
invalid-key-format `ValueError` exactly when the input does not contain
exactly one `':'` separator or either side does not convert as a Python
integer; in particular it fails on `""`, `"5"`, `"a:b"` and `"1:2:3"`. -/
theorem c7_invalid_key_exact_failures :
    (∀ s : List Char, ayah_key_to_int s = none ↔
      (colonCount s ≠ 1 ∨
        ∃ a b, pySplit ':' s = [a, b] ∧
          (int_of_pystr a = none ∨ int_of_pystr b = none))) ∧
    ayah_key_to_int (pyStr "") = none ∧
    ayah_key_to_int (pyStr "5") = none ∧
    ayah_key_to_int (pyStr "a:b") = none ∧
    ayah_key_to_int (pyStr "1:2:3") = none := by
  refine ⟨?_, by decide, by decide, by decide, by decide⟩
  intro s
  constructor
  · intro hnone
    by_cases hc : colonCount s = 1
    · rcases ayah_key_to_int_of_count_one hc with ⟨a, b, hsp, heq⟩
      rw [heq] at hnone
      exact Or.inr ⟨a, b, hsp, parseBothInts_none_iff.mp hnone⟩
    · exact Or.inl hc
  · intro h
    rcases h with hc | ⟨a, b, hsp, hfail⟩
    · exact ayah_key_to_int_none_of_count hc
    · have hc : colonCount s = 1 := by
        have hlen : (pySplit ':' s).length = colonCount s + 1 := pySplit_length ':' s
        rw [hsp] at hlen
        simp at hlen
        omega
      rcases ayah_key_to_int_of_count_one hc with ⟨a2, b2, hsp2, heq⟩
      rw [hsp] at hsp2
      rw [List.cons.injEq, List.cons.injEq] at hsp2
      rw [heq, ← hsp2.1, ← hsp2.2.1]
      exact parseBothInts_none_iff.mpr hfail

/-- Claim C5: for every integer `x ≥ 0`,
`verse_key_to_order(order_to_verse_key(x)) = x`: converting an order key to
its textual verse key (`chapter = x // 1000`, `verse = x % 1000`) and
parsing it back recovers exactly `x`. -/
theorem c5_order_key_roundtrip (x : Int) (hx : 0 ≤ x) :
    ayah_key_to_int (ayah_int_to_key x) = some x := by
  have h : ayah_key_to_int (mkKey (x.fdiv 1000) (x.fmod 1000)) =
      some (x.fdiv 1000 * 1000 + x.fmod 1000) := parse_mkKey _ _
  unfold mkKey at h
  unfold ayah_int_to_key
  rw [h]
  congr 1
  have hfm := Int.fdiv_add_fmod x 1000
  omega

/-- Witness for C5 at the concrete order key 55058 (ayah 55:58). -/
theorem c5_order_key_roundtrip_witness :
    0 ≤ (55058 : Int) ∧ ayah_key_to_int (ayah_int_to_key 55058) = some 55058 :=
  ⟨by decide, c5_order_key_roundtrip 55058 (by decide)⟩

/-- Claim C6: the order-key encoding is strictly order-preserving under the
verse-below-1000 assumption: for chapters `a < b` and verses
`1 ≤ v1, v2 ≤ 999`, the order key of `f"{a}:{v1}"` is strictly below that of
`f"{b}:{v2}"`; and for equal chapters, `v1 < v2` gives the same strict
inequality. -/
theorem c6_order_key_monotone (a b v1 v2 : Int)
    (ha : 1 ≤ a) (hab : a < b) (hv1l : 1 ≤ v1) (hv1u : v1 ≤ 999)
    (hv2l : 1 ≤ v2) (hv2u : v2 ≤ 999) :
    (∃ k1 k2, ayah_key_to_int (mkKey a v1) = some k1 ∧
      ayah_key_to_int (mkKey b v2) = some k2 ∧ k1 < k2) ∧
    (v1 < v2 → ∃ k1 k2, ayah_key_to_int (mkKey a v1) = some k1 ∧
      ayah_key_to_int (mkKey a v2) = some k2 ∧ k1 < k2) := by
  constructor
  · exact ⟨a * 1000 + v1, b * 1000 + v2, parse_mkKey a v1, parse_mkKey b v2, by omega⟩
  · intro hv
    exact ⟨a * 1000 + v1, a * 1000 + v2, parse_mkKey a v1, parse_mkKey a v2, by omega⟩

/-- Witness for C6 at chapters 1 < 2 with extreme verses 999 and 1, and at
equal chapter 1 with verses 1 < 2. -/
theorem c6_order_key_monotone_witness :
    (∃ k1 k2, ayah_key_to_int (mkKey 1 999) = some k1 ∧
      ayah_key_to_int (mkKey 2 1) = some k2 ∧ k1 < k2) ∧
    (∃ k1 k2, ayah_key_to_int (mkKey 1 1) = some k1 ∧
      ayah_key_to_int (mkKey 1 2) = some k2 ∧ k1 < k2) :=
  ⟨(c6_order_key_monotone 1 2 999 1 (by decide) (by decide) (by decide) (by decide)
      (by decide) (by decide)).1,
   (c6_order_key_monotone 1 2 1 2 (by decide) (by decide) (by decide) (by decide)
      (by decide) (by decide)).2 (by decide)⟩

/-- Claim C9: `ayah_key_to_int` accepts components with surrounding
whitespace or an explicit sign, because each side goes through Python's
lenient `int()` after the split: `" 1: 2"` gives 1002 and `"-1:5"` gives
-995, in both source variants. -/
theorem c9_lenient_component_parsing :
    ayah_key_to_int (pyStr " 1: 2") = some 1002 ∧
    ayah_key_to_int (pyStr "-1:5") = some (-995) ∧
    ayah_key_to_int_qul (pyStr " 1: 2") = some 1002 ∧
    ayah_key_to_int_qul (pyStr "-1:5") = some (-995) := by
  exact ⟨by decide, by decide, by decide, by decide⟩

/-- Counterexample for C3: `split_html_by_tags` does not drop elements with
no textual content — on `"<p></p>"` it returns a singleton list holding the
empty string, so the returned sequence does contain an empty string. The
`if part:` filter that discards empty segments lives in the caller
(`convert_to_vectara`), not in `split_html_by_tags`. -/
theorem c3_empty_string_not_dropped :
    split_html_by_tags (pyStr "<p></p>") = [[]] ∧
    [] ∈ split_html_by_tags (pyStr "<p></p>") := by
  exact ⟨by decide, by decide⟩

/-- Claim C3 (amended): structural-mode extraction returns the text content
of every `h1`, `h2` and `p` element of the markup in document order — one
output string per matched element, so elements with no textual content
contribute an empty string rather than being dropped — and on
`"<h1>Title</h1><p>Body</p><div>ignored</div>"` it returns exactly
`["Title", "Body"]` (`div` is not a recognized structural tag). -/
theorem c3_structural_extraction :
    split_html_by_tags (pyStr "<h1>Title</h1><p>Body</p><div>ignored</div>") =
      [pyStr "Title", pyStr "Body"] ∧
    (∀ html : List Char, (split_html_by_tags html).length =
      (findAllF structuralTags (htmlParse html)).length) := by
  refine ⟨by decide, ?_⟩
  intro html
  unfold split_html_by_tags
  exact List.length_map _ _

/-- Counterexample for C4: a null (`None`) input to structural-mode
extraction is an error, not an empty result — `BeautifulSoup(None, ...)`
raises `TypeError`, which `split_html_by_tags` does not catch. -/
theorem c4_null_input_raises :
    split_html_by_tags_py none = Except.error PyErr.typeError := rfl

/-- Claim C4 (amended): the empty-string input yields an empty result in
both extraction modes without an error (an empty sequence, an empty string);
a null input, however, raises `TypeError` in either mode when passed to
extraction directly (the per-section publisher guards against null text
before extracting; the whole-document publisher does not). -/
theorem c4_empty_and_null_inputs :
    split_html_by_tags_py (some (pyStr "")) = Except.ok [] ∧
    plain_text_extract_py (some (pyStr "")) = Except.ok [] ∧
    split_html_by_tags_py none = Except.error PyErr.typeError ∧
    plain_text_extract_py none = Except.error PyErr.typeError :=
  ⟨rfl, rfl, rfl, rfl⟩

theorem processSurah_deleteOk_irrelevant (B : VectaraBackend) (db : List TafsirRow)
    (name : List Char) (s : Nat) :
    (processSurah (allDeleteOk B) db name s).2 = (processSurah B db name s).2 ∧
    createdIds (processSurah (allDeleteOk B) db name s).1 =
      createdIds (processSurah B db name s).1 := by
  unfold processSurah
  rcases rowsParts (chapterRows db s) with e | parts
  · exact ⟨rfl, rfl⟩
  · by_cases hlen : parts.length ≠ 0
    · simp only [hlen, if_true]
      have hcr : (allDeleteOk B).createOk = B.createOk := rfl
      have hne : parts ≠ [] := fun h => hlen (by rw [h]; rfl)
      rw [hcr]
      cases hdel : B.deleteOk (vectaraDeleteId name s) <;>
        by_cases hc : B.createOk (vectaraCreateId name s) = true <;>
          simp [allDeleteOk, hc, createdIds, hdel, hne]
    · simp [hlen]

theorem convertLoop_deleteOk_irrelevant (B : VectaraBackend) (db : List TafsirRow)
    (name : List Char) : ∀ ss : List Nat,
    (convertLoop (allDeleteOk B) db name ss).2 = (convertLoop B db name ss).2 ∧
    createdIds (convertLoop (allDeleteOk B) db name ss).1 =
      createdIds (convertLoop B db name ss).1 := by
  intro ss
  induction ss with
  | nil => exact ⟨rfl, rfl⟩
  | cons s rest ih =>
    have hps := processSurah_deleteOk_irrelevant B db name s
    rcases h1 : processSurah B db name s with ⟨evs1, r1⟩
    rcases h2 : processSurah (allDeleteOk B) db name s with ⟨evs2, r2⟩
    rw [h1, h2] at hps
    simp only at hps
    unfold convertLoop
    rw [h1, h2]
    cases r1 with
    | some e =>
      rw [hps.1]
      exact ⟨rfl, hps.2⟩
    | none =>
      rw [hps.1]
      simp only [createdIds, List.filterMap_append] at *
      exact ⟨ih.1, by rw [hps.2, ih.2]⟩

theorem convertLoop_abort (B : VectaraBackend) (db : List TafsirRow) (name : List Char) :
    ∀ (pre : List Nat) (s : Nat) (post : List Nat) (e : PyErr),
    (∀ t ∈ pre, (processSurah B db name t).2 = none) →
    (processSurah B db name s).2 = some e →
    convertLoop B db name (pre ++ s :: post) =
      (pre.flatMap (fun t => (processSurah B db name t).1) ++ (processSurah B db name s).1,
       some e) := by
  intro pre
  induction pre with
  | nil =>
    intro s post e _ hfail
    rcases hp : processSurah B db name s with ⟨evs, r⟩
    rw [hp] at hfail
    simp only at hfail
    simp only [List.nil_append, List.flatMap_nil]
    unfold convertLoop
    rw [hp, hfail]
  | cons t ts ih =>
    intro s post e hok hfail
    have hto : (processSurah B db name t).2 = none := hok t (by simp)
    rcases hp : processSurah B db name t with ⟨evs, r⟩
    rw [hp] at hto
    simp only at hto
    subst hto
    have ihh := ih s post e (fun u hu => hok u (by simp [hu])) hfail
    simp only [List.cons_append]
    unfold convertLoop
    rw [hp, ihh]
    simp [List.flatMap_cons, hp, List.append_assoc]

/-- Counterexample for C2: with a backend whose create call fails for the
chapter-1 document, a run over chapters 1 and 2 aborts — the error escapes
`convert_to_vectara` and no create call is ever made for chapter 2. The
per-chapter loop does not catch create failures. -/
theorem c2_run_aborts_on_create_failure :
    (convert_to_vectara failX1Backend sampleDb (pyStr "x") (1, 3)).2 =
      some PyErr.backendError ∧
    VEvent.createDoc (pyStr "x-002") ∉
      (convert_to_vectara failX1Backend sampleDb (pyStr "x") (1, 3)).1 := by
  exact ⟨by decide, by decide⟩

/-- Claim C2 (amended): failures of the swallowed pre-create delete call
never affect the run — the propagated outcome and the set of create calls
are the same as with a backend whose deletes all succeed — but a backend
create failure is not caught by the per-chapter driver loop: the run ends at
the failing chapter with the error propagating, and no later chapter in the
range is processed. -/
theorem c2_create_failure_propagation :
    (∀ (B : VectaraBackend) (db : List TafsirRow) (name : List Char) (ss : List Nat),
      (convertLoop (allDeleteOk B) db name ss).2 = (convertLoop B db name ss).2 ∧
      createdIds (convertLoop (allDeleteOk B) db name ss).1 =
        createdIds (convertLoop B db name ss).1) ∧
    (∀ (B : VectaraBackend) (db : List TafsirRow) (name : List Char)
      (pre : List Nat) (s : Nat) (post : List Nat) (e : PyErr),
      (∀ t ∈ pre, (processSurah B db name t).2 = none) →
      (processSurah B db name s).2 = some e →
      convertLoop B db name (pre ++ s :: post) =
        (pre.flatMap (fun t => (processSurah B db name t).1) ++
          (processSurah B db name s).1, some e)) :=
  ⟨fun B db name ss => convertLoop_deleteOk_irrelevant B db name ss,
   fun B db name pre s post e => convertLoop_abort B db name pre s post e⟩

/-- Witness for C2 at a concrete run: chapter 1 succeeds, chapter 2's create
fails, chapter 3 is never reached. -/
theorem c2_create_failure_propagation_witness :
    convertLoop failX2Backend sampleDb (pyStr "x") ([1] ++ 2 :: [3]) =
      ([1].flatMap (fun t => (processSurah failX2Backend sampleDb (pyStr "x") t).1) ++
        (processSurah failX2Backend sampleDb (pyStr "x") 2).1, some PyErr.backendError) :=
  c2_create_failure_propagation.2 failX2Backend sampleDb (pyStr "x") [1] 2 [3]
    PyErr.backendError (by decide) (by decide)

/-- Claim C1 (code bug evidence): in a run over chapter 1, the pre-create
delete call targets `"ibn-kathir-1"` while the create call targets the
zero-padded `"ibn-kathir-001"` — two different ids, so the delete can never
remove the document a previous run created (for chapters below 100). -/
theorem c1_delete_create_id_mismatch :
    (convert_to_vectara okBackend sampleDb (pyStr "ibn-kathir") (1, 2)).1 =
      [VEvent.saveJson (pyStr "ibn-kathir-1.json"),
       VEvent.deleteDoc (pyStr "ibn-kathir-1"),
       VEvent.createDoc (pyStr "ibn-kathir-001")] ∧
    vectaraDeleteId (pyStr "ibn-kathir") 1 ≠ vectaraCreateId (pyStr "ibn-kathir") 1 := by
  exact ⟨by decide, by decide⟩

theorem sortGroup_perm (g : List AgDoc) : (sortGroup g).Perm g :=
  List.perm_insertionSort byCreated g

theorem sortGroup_sorted (g : List AgDoc) : List.Sorted byCreated (sortGroup g) :=
  List.sorted_insertionSort byCreated g

theorem dupNames_group_len {docs : List AgDoc} {n : List Char}
    (h : n ∈ dupNames docs) : 1 < (groupOf docs n).length := by
  unfold dupNames at h
  have h2 := (List.perm_insertionSort strLe _).mem_iff.mp h
  rcases List.mem_filter.mp h2 with ⟨_, hp⟩
  simpa using hp

theorem groupOf_ne_nil {docs : List AgDoc} {n : List Char}
    (h : n ∈ dupNames docs) : groupOf docs n ≠ [] := by
  have := dupNames_group_len h
  intro he
  rw [he] at this
  simp at this

theorem mem_decisions {docs : List AgDoc} {dry : Bool} {keep : List Char} {d : DupDecision}
    (h : d ∈ (deduplicate_agentset docs dry keep).decisions) :
    ∃ n, n ∈ dupNames docs ∧
      d = ⟨n, (decideGroup keep (groupOf docs n)).1, (decideGroup keep (groupOf docs n)).2⟩ := by
  have h2 : d ∈ (dupNames docs).map (fun n =>
      DupDecision.mk n (decideGroup keep (groupOf docs n)).1
        (decideGroup keep (groupOf docs n)).2) := h
  rcases List.mem_map.mp h2 with ⟨n, hn, heq⟩
  exact ⟨n, hn, by rw [← heq]⟩

theorem sortGroup_nil_imp {g : List AgDoc} (hs : sortGroup g = []) : g = [] := by
  have hperm := sortGroup_perm g
  rw [hs] at hperm
  exact (List.Perm.symm hperm).eq_nil

theorem decideGroup_oldest {g : List AgDoc} (hg : g ≠ []) :
    (decideGroup oldestStr g).1 :: (decideGroup oldestStr g).2 = sortGroup g := by
  unfold decideGroup
  rcases hs : sortGroup g with _ | ⟨k, rest⟩
  · exact absurd (sortGroup_nil_imp hs) hg
  · simp

theorem decideGroup_not_oldest {keep : List Char} (hk : keep ≠ oldestStr)
    {g : List AgDoc} (hg : g ≠ []) :
    (decideGroup keep g).2 ++ [(decideGroup keep g).1] = sortGroup g := by
  unfold decideGroup
  rcases hs : sortGroup g with _ | ⟨k, rest⟩
  · exact absurd (sortGroup_nil_imp hs) hg
  · simp only [hk, if_false]
    exact List.dropLast_append_getLast (List.cons_ne_nil k rest)

theorem decideGroup_ne_oldest_eq {keep : List Char} (hk : keep ≠ oldestStr)
    (g : List AgDoc) : decideGroup keep g = decideGroup newestStr g := by
  unfold decideGroup
  rcases sortGroup g with _ | ⟨k, rest⟩
  · rfl
  · have h2 : newestStr ≠ oldestStr := by decide
    simp [hk, h2]

/-- Claim C8: in dry-run mode the duplicate reconciler performs zero delete
calls; and for every duplicate group, with `keep = "oldest"` the retained
entry is the first element of the group sorted ascending by creation
timestamp (so its timestamp is minimal), every other entry of the group
being flagged for deletion. Includes the spec scenario: three documents
named `"x"` with timestamps `[1, 3, 2]` retain the timestamp-1 document and
flag the other two, with no delete call performed. -/
theorem c8_dry_run_and_keep_oldest :
    (∀ (docs : List AgDoc) (keep : List Char),
      (deduplicate_agentset docs true keep).deleteCalls = []) ∧
    (∀ (docs : List AgDoc) (dry : Bool),
      ∀ d ∈ (deduplicate_agentset docs dry oldestStr).decisions,
        d.keepDoc :: d.deleteDocs = sortGroup (groupOf docs d.name) ∧
        (d.keepDoc :: d.deleteDocs).Perm (groupOf docs d.name) ∧
        ∀ x ∈ d.deleteDocs, d.keepDoc.created_at ≤ x.created_at) ∧
    (deduplicate_agentset exDocs true oldestStr).decisions =
      [⟨pyStr "x", exDocA, [exDocC, exDocB]⟩] ∧
    (deduplicate_agentset exDocs true oldestStr).deleteCalls = [] := by
  refine ⟨fun docs keep => rfl, ?_, by decide, rfl⟩
  intro docs dry d hd
  rcases mem_decisions hd with ⟨n, hn, hde⟩
  subst hde
  have hg : groupOf docs n ≠ [] := groupOf_ne_nil hn
  have heq := decideGroup_oldest (g := groupOf docs n) hg
  simp only
  refine ⟨heq, ?_, ?_⟩
  · rw [heq]
    exact sortGroup_perm (groupOf docs n)
  · have hsort := sortGroup_sorted (groupOf docs n)
    rw [← heq] at hsort
    exact fun x hx => List.rel_of_sorted_cons hsort x hx

/-- Witness for C8's keep-oldest part at the spec scenario. -/
theorem c8_dry_run_and_keep_oldest_witness :
    exDocA :: [exDocC, exDocB] = sortGroup (groupOf exDocs (pyStr "x")) ∧
    (exDocA :: [exDocC, exDocB]).Perm (groupOf exDocs (pyStr "x")) ∧
    (∀ x ∈ [exDocC, exDocB], exDocA.created_at ≤ x.created_at) :=
  c8_dry_run_and_keep_oldest.2.1 exDocs true
    ⟨pyStr "x", exDocA, [exDocC, exDocB]⟩ (by decide)

/-- Claim C10: `deduplicate_agentset` never validates `keep`: every value
other than the literal `"oldest"` takes the else branch and applies the
keep-newest policy — the run equals the `keep = "newest"` run, and each
duplicate group retains the last entry of its ascending sort by creation
timestamp (so its timestamp is maximal), flagging the rest. -/
theorem c10_keep_fallthrough_newest (keep : List Char) (hk : keep ≠ oldestStr) :
    (∀ (docs : List AgDoc) (dry : Bool),
      deduplicate_agentset docs dry keep = deduplicate_agentset docs dry newestStr) ∧
    (∀ (docs : List AgDoc) (dry : Bool),
      ∀ d ∈ (deduplicate_agentset docs dry keep).decisions,
        d.deleteDocs ++ [d.keepDoc] = sortGroup (groupOf docs d.name) ∧
        (d.keepDoc :: d.deleteDocs).Perm (groupOf docs d.name) ∧
        ∀ x ∈ d.deleteDocs, x.created_at ≤ d.keepDoc.created_at) := by
  constructor
  · intro docs dry
    unfold deduplicate_agentset
    simp only [decideGroup_ne_oldest_eq hk]
  · intro docs dry d hd
    rcases mem_decisions hd with ⟨n, hn, hde⟩
    subst hde
    have hg : groupOf docs n ≠ [] := groupOf_ne_nil hn
    have heq := decideGroup_not_oldest hk (g := groupOf docs n) hg
    simp only
    refine ⟨heq, ?_, ?_⟩
    · have hp1 := List.perm_append_singleton (decideGroup keep (groupOf docs n)).1
        (decideGroup keep (groupOf docs n)).2
      have hp2 : ((decideGroup keep (groupOf docs n)).1 ::
          (decideGroup keep (groupOf docs n)).2).Perm (sortGroup (groupOf docs n)) := by
        rw [← heq]
        exact hp1.symm
      exact hp2.trans (sortGroup_perm (groupOf docs n))
    · have hsort := sortGroup_sorted (groupOf docs n)
      rw [← heq] at hsort
      have hpw := List.pairwise_append.mp hsort
      exact fun x hx => hpw.2.2 x hx _ (by simp)

/-- Witness for C10 with the unvalidated policy string `"weird"`. -/
theorem c10_keep_fallthrough_newest_witness :
    deduplicate_agentset exDocs false (pyStr "weird") =
      deduplicate_agentset exDocs false newestStr :=
  (c10_keep_fallthrough_newest (pyStr "weird") (by decide)).1 exDocs false
